import Mathlib

/-!
Verification development for the ira-tracker repository.

The core subsystem under study is the project deduplication and
record-linkage pipeline (`project-similarity.py`): its source is not
shipped in this repository, only its documented behavior
(METHODOLOGY.md and the specification), so every definition of that
pipeline below is modelled from the spec.  The CSV-to-GeoJSON converter
(`csv-to-geojson.ts`) IS present in the source tree and is embedded
directly from its code.

Numbers are modelled as exact rationals; an unparseable / NaN value is
an explicit `none`.  The haversine distance and the fitted TF-IDF
vectorizer involve transcendental arithmetic, so the scorer is
parametrized by the distance function (a `Coord → Coord → ℚ` argument)
and by the fitted vectorizer (`List String → List ℚ`); theorems that
depend on their properties (vanishing on the diagonal, symmetry) take
those properties as hypotheses, which the real haversine satisfies.
-/

namespace IraTracker

/-- Modelled from the spec: funding source enumeration — IRA, BIL, or other. -/
inductive FundingSource where
  | ira : FundingSource
  | bil : FundingSource
  | other : String → FundingSource
deriving DecidableEq

/-- A (latitude, longitude) pair in exact rational degrees. -/
def Coord : Type := ℚ × ℚ

instance : DecidableEq Coord := instDecidableEqProd

/-- Modelled from the spec: canonical representation of one funded project
(`ProjectRecord`).  Fields that no verified claim touches (bureau, program
identifiers, category, provenance tag, review status) are omitted.  `state`
is `none` when the raw value was unknown/unrecognized (the spec flags such
values so that state scoring is indeterminate and never matches); `amount`
is `none` for the explicit "unknown" amount; `coords` is `none` when absent.
The normalized comparison forms of name and description are retained as
token lists alongside the display text. -/
structure ProjectRecord where
  id : String
  name : String
  nameTokens : List String
  desc : String
  descTokens : List String
  fundingSource : FundingSource
  amount : Option ℚ
  agency : String
  state : Option String
  coords : Option Coord
deriving DecidableEq

/-- Dot product of two similarity vectors (missing tail coordinates count 0). -/
def dot (a b : List ℚ) : ℚ := (List.zipWith (fun x y => x * y) a b).sum

/-- Whether the cosine similarity of `a` and `b` strictly exceeds the
threshold `t` (for `0 < t`), phrased without square roots:
`dot a b / sqrt (dot a a * dot b b) > t  ↔  0 < dot a b ∧
t² · (dot a a · dot b b) < (dot a b)²`.  A zero vector (undefined cosine)
yields `false`, matching the usual convention that its similarity is 0. -/
def cosGT (t : ℚ) (a b : List ℚ) : Bool :=
  decide (0 < dot a b) && decide (t ^ 2 * (dot a a * dot b b) < (dot a b) ^ 2)

/-- Modelled from the spec: the geographic-distance criterion of the
Similarity Scorer, as a function of the haversine distance in km between
the two records (`none` when either record's coordinates are missing).
Tiers: <1 km → 40, <10 km → 30, <50 km → 15, <100 km → 5, else 0. -/
def geoPoints (d : Option ℚ) : ℕ :=
  match d with
  | none => 0
  | some d => if d < 1 then 40 else if d < 10 then 30 else
      if d < 50 then 15 else if d < 100 then 5 else 0

/-- The distance between two records' coordinate pairs, under the ambient
distance function `dist` (the haversine in the real pipeline); `none` when
either record's coordinates are missing. -/
def pairDist (dist : Coord → Coord → ℚ) (a b : ProjectRecord) : Option ℚ :=
  match a.coords, b.coords with
  | some p, some q => some (dist p q)
  | _, _ => none

/-- Modelled from the spec: state-match criterion — 10 points when both
normalized states are known and equal, else 0 (an unknown state never
matches). -/
def statePoints (a b : ProjectRecord) : ℕ :=
  match a.state, b.state with
  | some s, some t => if s = t then 10 else 0
  | _, _ => 0

/-- Modelled from the spec: funding-source criterion — 5 points when both
records are IRA or both are BIL, else 0. -/
def sourcePoints (a b : ProjectRecord) : ℕ :=
  match a.fundingSource, b.fundingSource with
  | .ira, .ira => 5
  | .bil, .bil => 5
  | _, _ => 0

/-- Modelled from the spec: name-similarity criterion on the TF-IDF vectors
produced by the fitted vectorizer `vec` — >0.8 → 30, >0.5 → 20, >0.3 → 10,
else 0. -/
def namePoints (vec : List String → List ℚ) (a b : ProjectRecord) : ℕ :=
  if cosGT (8/10) (vec a.nameTokens) (vec b.nameTokens) then 30
  else if cosGT (5/10) (vec a.nameTokens) (vec b.nameTokens) then 20
  else if cosGT (3/10) (vec a.nameTokens) (vec b.nameTokens) then 10
  else 0

/-- Modelled from the spec: description-similarity criterion — >0.7 → 15,
>0.4 → 10, >0.2 → 5, else 0. -/
def descPoints (vec : List String → List ℚ) (a b : ProjectRecord) : ℕ :=
  if cosGT (7/10) (vec a.descTokens) (vec b.descTokens) then 15
  else if cosGT (4/10) (vec a.descTokens) (vec b.descTokens) then 10
  else if cosGT (2/10) (vec a.descTokens) (vec b.descTokens) then 5
  else 0

/-- Modelled from the spec: funding-amount criterion — 5 points when both
amounts are known, not both zero, and within 10% of each other relative to
the larger; 0 when either is unknown, both are zero, or the difference
exceeds 10%. -/
def amountPoints (a b : ProjectRecord) : ℕ :=
  match a.amount, b.amount with
  | some x, some y =>
      if x = 0 ∧ y = 0 then 0
      else if |x - y| ≤ max x y / 10 then 5 else 0
  | _, _ => 0

/-- Modelled from the spec: agency-match criterion — 5 points on exact
string match of agency names, else 0. -/
def agencyPoints (a b : ProjectRecord) : ℕ :=
  if a.agency = b.agency then 5 else 0

/-- Modelled from the spec: the total similarity score — the sum of the
seven per-criterion point awards, capped at 100. -/
def score (dist : Coord → Coord → ℚ) (vec : List String → List ℚ)
    (a b : ProjectRecord) : ℕ :=
  min 100 (geoPoints (pairDist dist a b) + statePoints a b + sourcePoints a b
    + namePoints vec a b + descPoints vec a b + amountPoints a b
    + agencyPoints a b)

/-! ### Normalizer -/

/-- Lower-case every character of a string (structurally, over its
character list). -/
def toLowerStr (s : String) : String := String.mk (s.toList.map Char.toLower)

/-- Upper-case every character of a string (structurally, over its
character list). -/
def toUpperStr (s : String) : String := String.mk (s.toList.map Char.toUpper)

/-- Split a character list on a separator character (adjacent separators
yield empty chunks, as `splitOn` does). -/
def splitOnChar (sep : Char) : List Char → List (List Char)
  | [] => [[]]
  | c :: t =>
      let r := splitOnChar sep t
      if c = sep then [] :: r
      else
        match r with
        | h :: rest => (c :: h) :: rest
        | [] => [[c]]

/-- Modelled from the spec: the stop-word list used when normalizing free
text (representative common words). -/
def stopWords : List String :=
  ["the", "of", "a", "an", "and", "in", "for", "to", "on", "at"]

/-- Modelled from the spec: free text is lower-cased, punctuation-stripped
(non-alphanumeric characters become spaces), split on whitespace and
stop-word-filtered into a normalized token list. -/
def normalizeText (s : String) : List String :=
  ((splitOnChar ' '
      (s.toList.map (fun c =>
        let l := c.toLower
        if l.isAlphanum then l else ' '))).map String.mk).filter
    (fun w => decide (w ≠ "") && decide (w ∉ stopWords))

/-- A whitespace character (space, tab, newline, carriage return). -/
def isSpaceChar (c : Char) : Bool :=
  decide (c = ' ') || decide (c = '\t') || decide (c = '\n') || decide (c = '\r')

/-- Structural whitespace trim of a character list. -/
def trimChars (cs : List Char) : List Char :=
  ((cs.dropWhile isSpaceChar).reverse.dropWhile isSpaceChar).reverse

/-- Structural whitespace trim of a string (the behavior of `trim` on the
data processed here). -/
def trimStr (s : String) : String := String.mk (trimChars s.toList)

/-- Numeric value of a digit string (most significant first). -/
def digitsVal (cs : List Char) : ℕ :=
  cs.foldl (fun a c => a * 10 + (c.toNat - 48)) 0

/-- Value of a fractional digit string, e.g. `['2','5']` ↦ `0.25`. -/
def fracVal (cs : List Char) : ℚ :=
  (digitsVal cs : ℚ) / 10 ^ cs.length

/-- Parse an unsigned decimal literal (`digits`, `digits.digits`,
`.digits` or `digits.`), requiring at least one digit; anything else is
`none`. -/
def parseDecimal (cs : List Char) : Option ℚ :=
  let ip := cs.takeWhile Char.isDigit
  let rest := cs.dropWhile Char.isDigit
  match rest with
  | [] => if ip.isEmpty then none else some (digitsVal ip)
  | '.' :: frac =>
      if (ip.isEmpty && frac.isEmpty) || !frac.all Char.isDigit then none
      else some ((digitsVal ip : ℚ) + fracVal frac)
  | _ => none

/-- Parse an optionally negated decimal literal. -/
def parseSignedQ (cs : List Char) : Option ℚ :=
  match cs with
  | '-' :: rest => (parseDecimal rest).map (fun q => -q)
  | _ => parseDecimal cs

/-- Drop currency symbols, thousands separators and spaces. -/
def stripCurrency (s : String) : List Char :=
  s.toList.filter (fun c => decide (c ≠ '$') && decide (c ≠ ',') && decide (c ≠ ' '))

/-- Modelled from the spec: currency-like fields are parsed into exact
decimal amounts, discarding symbols and thousands separators; a non-numeric
or empty value becomes the explicit unknown amount `none`, never zero. -/
def parseAmount (s : String) : Option ℚ :=
  parseDecimal (stripCurrency s)

/-- Modelled from the spec: the canonical two-letter form lookup table for
states and recognized territories (a representative subset: all entries the
verified claims exercise, keyed by upper-cased input). -/
def stateTable : List (String × String) :=
  [("AL","AL"),("AK","AK"),("AZ","AZ"),("AR","AR"),("CA","CA"),("CO","CO"),
   ("CT","CT"),("DE","DE"),("FL","FL"),("GA","GA"),("HI","HI"),("ID","ID"),
   ("IL","IL"),("IN","IN"),("IA","IA"),("KS","KS"),("KY","KY"),("LA","LA"),
   ("ME","ME"),("MD","MD"),("MA","MA"),("MI","MI"),("MN","MN"),("MS","MS"),
   ("MO","MO"),("MT","MT"),("NE","NE"),("NV","NV"),("NH","NH"),("NJ","NJ"),
   ("NM","NM"),("NY","NY"),("NC","NC"),("ND","ND"),("OH","OH"),("OK","OK"),
   ("OR","OR"),("PA","PA"),("RI","RI"),("SC","SC"),("SD","SD"),("TN","TN"),
   ("TX","TX"),("UT","UT"),("VT","VT"),("VA","VA"),("WA","WA"),("WV","WV"),
   ("WI","WI"),("WY","WY"),("DC","DC"),("PR","PR"),("GU","GU"),("VI","VI"),
   ("AS","AS"),("MP","MP"),
   ("PENNSYLVANIA","PA"),("CALIFORNIA","CA"),("NEW YORK","NY"),
   ("TEXAS","TX"),("ALASKA","AK"),("COLORADO","CO")]

/-- Modelled from the spec: map a raw state value to its canonical
two-letter form; an unknown value yields `none`, which the scorer treats as
indeterminate (never matches). -/
def normalizeState (s : String) : Option String :=
  (stateTable.find? (fun kv => kv.1 = toUpperStr (trimStr s))).map (fun kv => kv.2)

/-- Modelled from the spec: parse a raw funding-source value. -/
def parseSource (s : String) : FundingSource :=
  let u := toUpperStr (trimStr s)
  if u = "IRA" then .ira else if u = "BIL" then .bil else .other s

/-- Modelled from the spec: the known per-agency source schemas, plus the
baseline White House schema; any other source is unrecognized. -/
inductive Source where
  | bia : Source
  | doe : Source
  | doi : Source
  | epa : Source
  | noaa : Source
  | usbr : Source
  | whiteHouse : Source
  | unknownSrc : String → Source
deriving DecidableEq

/-- One raw CSV row: its source tag and its (column name, value) cells. -/
structure RawRow where
  source : Source
  fields : List (String × String)
deriving DecidableEq

/-- Modelled from the spec: the error taxonomy of the Normalizer. -/
inductive NormError where
  | schemaError : NormError
  | unknownSchemaError : NormError
deriving DecidableEq

/-- Modelled from the spec: the fixed source→canonical field-name
dictionary, one entry per known agency format (the per-agency rename lists
are representative); an unrecognized source has no mapping, so
normalization fails closed rather than guessing. -/
def fieldMap : Source → Option (List (String × String))
  | .whiteHouse => some []
  | .bia => some [("project_title", "name"), ("project_state", "state")]
  | .doe => some [("Project Title", "name"), ("State", "state")]
  | .doi => some [("title", "name"), ("st", "state")]
  | .epa => some [("Project Name", "name"), ("Project State", "state")]
  | .noaa => some [("PROJECT_TITLE", "name"), ("STATE", "state")]
  | .usbr => some [("ProjectName", "name"), ("StateName", "state")]
  | .unknownSrc _ => none

/-- Rename a row's column names through a source→canonical dictionary;
columns not in the dictionary keep their names. -/
def applyMap (m : List (String × String)) (fields : List (String × String)) :
    List (String × String) :=
  fields.map (fun kv =>
    match m.find? (fun e => e.1 = kv.1) with
    | some e => (e.2, kv.2)
    | none => kv)

/-- First value bound to column `k`, if any. -/
def lookupField (fields : List (String × String)) (k : String) : Option String :=
  (fields.find? (fun kv => kv.1 = k)).map (fun kv => kv.2)

/-- Modelled from the spec: the Normalizer — produce a `ProjectRecord` from
one raw row, or fail with `unknownSchemaError` when the source schema is
unrecognized (no guessed field mapping) and with `schemaError` when the
required identifying name field is entirely absent. -/
def normalizeRow (r : RawRow) : Except NormError ProjectRecord :=
  match fieldMap r.source with
  | none => .error .unknownSchemaError
  | some m =>
    let f := applyMap m r.fields
    match lookupField f "name" with
    | none => .error .schemaError
    | some nm =>
      if trimStr nm = "" then .error .schemaError
      else
        let la := (lookupField f "lat").bind (fun v => parseSignedQ (trimStr v).toList)
        let lo := (lookupField f "lon").bind (fun v => parseSignedQ (trimStr v).toList)
        .ok
          { id := (lookupField f "id").getD nm
            name := nm
            nameTokens := normalizeText nm
            desc := (lookupField f "desc").getD ""
            descTokens := normalizeText ((lookupField f "desc").getD "")
            fundingSource := parseSource ((lookupField f "source").getD "")
            amount := parseAmount ((lookupField f "amount").getD "")
            agency := (lookupField f "agency").getD ""
            state := normalizeState ((lookupField f "state").getD "")
            coords :=
              match la, lo with
              | some a, some b => some ((a, b) : Coord)
              | _, _ => none }

/-- Modelled from the spec: normalize a whole batch — each erroring row is
skipped (locally recovered) while the rest proceeds; also report the count
of skipped rows. -/
def normalizeBatch (rows : List RawRow) : List ProjectRecord × ℕ :=
  (rows.filterMap (fun r => (normalizeRow r).toOption),
   rows.countP (fun r => !(normalizeRow r).isOk))

/-- The three terminal classifications of the Decision Engine. -/
inductive Decision where
  | duplicate : Decision
  | needsReview : Decision
  | new : Decision
deriving DecidableEq

/-- Modelled from the spec: the Decision Engine's classification of an
incoming record from its best candidate score — ≥80 Duplicate,
40–79 NeedsReview, <40 New. -/
def classify (s : ℕ) : Decision :=
  if 80 ≤ s then .duplicate else if 40 ≤ s then .needsReview else .new

/-! ### Feature Indexer and Candidate Finder -/

/-- Modelled from the spec: index-construction failure is the one fatal
error of the run. -/
inductive IndexBuildError where
  | malformedCanonicalRecord : IndexBuildError
deriving DecidableEq

/-- Is a canonical record fit to anchor the index?  Its coordinates, when
present, must satisfy the documented invariant lat ∈ [−90, 90],
lon ∈ [−180, 180]. -/
def validAnchor (r : ProjectRecord) : Bool :=
  match r.coords with
  | none => true
  | some c =>
      decide (-90 ≤ c.1) && decide (c.1 ≤ 90) &&
      decide (-180 ≤ c.2) && decide (c.2 ≤ 180)

/-- Modelled from the spec: the per-run SimilarityIndex, built once from
the canonical database snapshot and only ever read afterwards. -/
structure SimIndex where
  records : List ProjectRecord
deriving DecidableEq

/-- Modelled from the spec: build the SimilarityIndex from the canonical
snapshot, failing fast with `IndexBuildError` when any canonical record is
malformed — never producing a partial or degraded index. -/
def buildIndex (db : List ProjectRecord) : Except IndexBuildError SimIndex :=
  if db.all validAnchor then .ok ⟨db⟩ else .error .malformedCanonicalRecord

/-- Is canonical record `c` within the generous 100 km spatial-query radius
of incoming record `r`? -/
def withinRadius (dist : Coord → Coord → ℚ) (r c : ProjectRecord) : Bool :=
  match pairDist dist r c with
  | some d => decide (d < 100)
  | none => false

/-- Do the two records share a known normalized state? -/
def sameState (r c : ProjectRecord) : Bool :=
  match r.state, c.state with
  | some s, some t => decide (s = t)
  | _, _ => false

/-- Keep only the first record bearing each identifier, preserving order. -/
def dedupById : List String → List ProjectRecord → List ProjectRecord
  | _, [] => []
  | seen, c :: t =>
      if c.id ∈ seen then dedupById seen t
      else c :: dedupById (c.id :: seen) t

/-- Modelled from the spec: the Candidate Finder — union (deduplicated by
identifier) of the spatial query within the 100 km radius and the
state-index query; when the incoming record has neither usable coordinates
nor a recognized state, fall back to the full canonical set. -/
def candidatesFor (dist : Coord → Coord → ℚ) (db : List ProjectRecord)
    (r : ProjectRecord) : List ProjectRecord :=
  if r.coords.isNone && r.state.isNone then db
  else dedupById [] (db.filter (withinRadius dist r) ++ db.filter (sameState r))

/-! ### Best-candidate selection -/

/-- Modelled from the spec: one scored candidate pair, as handed to the
Decision Engine — the canonical record, the total score, and the
geographic distance used for tie-breaking. -/
structure ScoredCand where
  cand : ProjectRecord
  total : ℕ
  gdist : Option ℚ
deriving DecidableEq

/-- Score one candidate against the incoming record `r`. -/
def mkCand (dist : Coord → Coord → ℚ) (vec : List String → List ℚ)
    (r c : ProjectRecord) : ScoredCand :=
  ⟨c, score dist vec r c, pairDist dist r c⟩

/-- A missing geographic distance compares above every present one. -/
def gdistKey : Option ℚ → WithTop ℚ
  | none => ⊤
  | some d => (d : WithTop ℚ)

/-- Modelled from the spec: the deterministic preference key for candidate
selection — higher score first, then smaller geographic distance (missing
distance last), then lexicographically smaller canonical identifier; the
retained candidate is the key-minimal one. -/
def candKey (c : ScoredCand) : Lex ((OrderDual ℕ) × Lex ((WithTop ℚ) × String)) :=
  toLex (OrderDual.toDual c.total, toLex (gdistKey c.gdist, c.cand.id))

/-- Keep whichever of the running best `a` and the next candidate `c` has
the smaller preference key. -/
def pickBetter (a c : ScoredCand) : ScoredCand :=
  if candKey c < candKey a then c else a

/-- Modelled from the spec: retain exactly the highest-preference candidate
(ties broken by distance then identifier); `none` on an empty candidate
set. -/
def bestCand : List ScoredCand → Option ScoredCand
  | [] => none
  | h :: t => some (t.foldl pickBetter h)

/-- Modelled from the spec: the best score of a candidate set, defined as 0
when the set is empty. -/
def bestScoreOf (l : List ScoredCand) : ℕ :=
  match bestCand l with
  | none => 0
  | some b => b.total

/-! ### Decision Engine and pipeline run -/

/-- The per-record outcome computed by the Decision Engine, with the merge
target or review payload. -/
inductive Outcome where
  | dup : String → Outcome
  | review : String → ℕ → Outcome
  | new : Outcome
deriving DecidableEq

/-- Modelled from the spec: classify one incoming record against the
canonical snapshot — find candidates, score them, retain the best, and
apply the 80/40 thresholds (an empty candidate set means score 0, hence
New). -/
def classifyOne (dist : Coord → Coord → ℚ) (vec : List String → List ℚ)
    (db : List ProjectRecord) (r : ProjectRecord) : Outcome :=
  match bestCand ((candidatesFor dist db r).map (mkCand dist vec r)) with
  | none => .new
  | some b =>
      if 80 ≤ b.total then .dup b.cand.id
      else if 40 ≤ b.total then .review b.cand.id b.total
      else .new

/-- Modelled from the spec: generate a fresh identifier — one strictly
longer than every identifier in use, hence never colliding. -/
def freshId (used : List String) : String :=
  String.mk (List.replicate ((used.map String.length).foldr max 0 + 1) 'N')

/-- Replace a record's identifier. -/
def setId (r : ProjectRecord) (i : String) : ProjectRecord := { r with id := i }

/-- One row of the human-review output: the incoming record, its best
match's identifier and the match score. -/
structure ReviewRow where
  incoming : ProjectRecord
  matchedId : String
  matchScore : ℕ
deriving DecidableEq

/-- The state threaded through the scoring pass: identifiers in use, the
pending merges (target id, incoming record), the newly admitted records,
and the review rows, each in arrival order. -/
structure RunState where
  usedIds : List String
  merges : List (String × ProjectRecord)
  news : List ProjectRecord
  review : List ReviewRow
deriving DecidableEq

/-- The run state before any incoming record is processed: the canonical
identifiers are in use, nothing else. -/
def initState (db : List ProjectRecord) : RunState :=
  ⟨db.map (fun r => r.id), [], [], []⟩

/-- Modelled from the spec: process one incoming record — a Duplicate is
queued for merging into its match, a NeedsReview row goes to the review
output, and a New record is appended with a freshly generated
identifier. -/
def runStep (dist : Coord → Coord → ℚ) (vec : List String → List ℚ)
    (db : List ProjectRecord) (st : RunState) (r : ProjectRecord) : RunState :=
  match classifyOne dist vec db r with
  | .dup mid => ⟨st.usedIds, st.merges ++ [(mid, r)], st.news, st.review⟩
  | .review mid s => ⟨st.usedIds, st.merges, st.news, st.review ++ [⟨r, mid, s⟩]⟩
  | .new =>
      ⟨st.usedIds ++ [freshId st.usedIds], st.merges,
       st.news ++ [setId r (freshId st.usedIds)], st.review⟩

/-- Process the whole incoming batch, in batch order, against the fixed
canonical snapshot. -/
def runBatch (dist : Coord → Coord → ℚ) (vec : List String → List ℚ)
    (db : List ProjectRecord) (batch : List ProjectRecord) : RunState :=
  batch.foldl (runStep dist vec db) (initState db)

/-- Modelled from the spec: merge a duplicate incoming record into its
matched canonical record — incoming-only fields fill canonical gaps, and a
conflicting populated canonical field is never overwritten (canonical
wins); the canonical identifier is kept. -/
def mergeRecords (c inc : ProjectRecord) : ProjectRecord :=
  { c with
    desc := if c.desc = "" then inc.desc else c.desc
    descTokens := if c.desc = "" then inc.descTokens else c.descTokens
    amount := c.amount.orElse (fun _ => inc.amount)
    state := c.state.orElse (fun _ => inc.state)
    coords := c.coords.orElse (fun _ => inc.coords) }

/-- Apply the queued merges to the canonical list, in place, preserving the
original canonical record order. -/
def applyMerges (db : List ProjectRecord) (ms : List (String × ProjectRecord)) :
    List ProjectRecord :=
  db.map (fun c =>
    (ms.filter (fun m => m.1 = c.id)).foldl (fun acc m => mergeRecords acc m.2) c)

/-- The outputs of one pipeline run: the updated canonical list and the
review list. -/
structure RunOutput where
  canonical : List ProjectRecord
  review : List ReviewRow
deriving DecidableEq

/-- Modelled from the spec: one full pipeline run — build the
SimilarityIndex from the canonical snapshot (aborting the whole run, with
no partial output, on an index-construction error), score and classify the
batch against the immutable snapshot, and emit the merged canonical output
(original canonical order first, then newly admitted records in batch
order) and the review output (batch order). -/
def runPipeline (dist : Coord → Coord → ℚ) (vec : List String → List ℚ)
    (db : List ProjectRecord) (batch : List ProjectRecord) :
    Except IndexBuildError RunOutput :=
  match buildIndex db with
  | .error e => .error e
  | .ok idx =>
      let st := runBatch dist vec idx.records batch
      .ok ⟨applyMerges idx.records st.merges ++ st.news, st.review⟩

/-- The review rows a batch generates, written directly as a per-record
function of the canonical snapshot, in batch order. -/
def reviewsOf (dist : Coord → Coord → ℚ) (vec : List String → List ℚ)
    (db : List ProjectRecord) (batch : List ProjectRecord) : List ReviewRow :=
  batch.filterMap (fun r =>
    match classifyOne dist vec db r with
    | .review m s => some ⟨r, m, s⟩
    | _ => none)

/-- The merge queue a batch generates, written directly as a per-record
function of the canonical snapshot, in batch order. -/
def dupsOf (dist : Coord → Coord → ℚ) (vec : List String → List ℚ)
    (db : List ProjectRecord) (batch : List ProjectRecord) :
    List (String × ProjectRecord) :=
  batch.filterMap (fun r =>
    match classifyOne dist vec db r with
    | .dup m => some (m, r)
    | _ => none)

/-- The records a batch admits as new, written directly as a per-record
function of the canonical snapshot, in batch order. -/
def newsOf (dist : Coord → Coord → ℚ) (vec : List String → List ℚ)
    (db : List ProjectRecord) (batch : List ProjectRecord) : List ProjectRecord :=
  batch.filter (fun r => decide (classifyOne dist vec db r = .new))

/-- Erase a record's identifier (used to compare newly admitted records up
to their freshly assigned identifiers). -/
def stripId (r : ProjectRecord) : ProjectRecord := { r with id := "" }

/-! ### The CSV-to-GeoJSON converter (embedded from `csv-to-geojson.ts`) -/

namespace CsvToGeojson

/-- From the source: `cleanFieldName` strips a leading BOM and trims
whitespace. -/
def stripBom (s : String) : String :=
  match s.toList with
  | c :: rest => if c = Char.ofNat 0xFEFF then String.mk rest else s
  | [] => s

/-- From the source: `cleanFieldName(key)`. -/
def cleanFieldName (k : String) : String := trimStr (stripBom k)

/-- Longest numeric prefix of a character list as an exact rational
(`digits`, `digits.`, `digits.digits` or `.digits`; trailing junk is
ignored, as JS `parseFloat` does); `none` when no digit leads. -/
def parsePrefixQ (cs : List Char) : Option ℚ :=
  let ip := cs.takeWhile Char.isDigit
  let rest := cs.dropWhile Char.isDigit
  match rest with
  | '.' :: more =>
      let fp := more.takeWhile Char.isDigit
      if ip.isEmpty && fp.isEmpty then none
      else some ((digitsVal ip : ℚ) + fracVal fp)
  | _ => if ip.isEmpty then none else some ((digitsVal ip : ℚ))

/-- From the source: JS `parseFloat` on a cell — leading whitespace
skipped, optional sign, longest numeric prefix (exponents not exercised by
the data and not modelled); `none` models the `NaN` result. -/
def parseFloatQ (s : String) : Option ℚ :=
  match (trimStr s).toList with
  | '-' :: rest => (parsePrefixQ rest).map (fun q => -q)
  | '+' :: rest => parsePrefixQ rest
  | cs => parsePrefixQ cs

/-- From the source: JS `Number(value)` — empty/whitespace is 0, otherwise
the whole trimmed string must be numeric; `none` models `NaN`. -/
def numberQ (s : String) : Option ℚ :=
  let t := trimStr s
  if t = "" then some 0 else parseSignedQ t.toList

/-- A JS value stored in a feature property: a number or a string. -/
inductive JSValue where
  | num : ℚ → JSValue
  | str : String → JSValue
deriving DecidableEq

/-- From the source: `isNaN(Number(value)) ? String(value) : Number(value)`. -/
def coerceVal (v : String) : JSValue :=
  match numberQ v with
  | some q => .num q
  | none => .str v

/-- From the source: the `CSVRow` produced by the `data` handler —
`parseFloat`ed coordinates (`none` = `NaN`), the UID string, and every
other original column (exact names `Latitude`/`Longitude`/`UID` excluded)
with its number-or-string coerced value. -/
structure CSVRow where
  Latitude : Option ℚ
  Longitude : Option ℚ
  UID : String
  extra : List (String × JSValue)
deriving DecidableEq

/-- Is `needle` a prefix of `hay`? -/
def startsWithSeq : List Char → List Char → Bool
  | [], _ => true
  | _ :: _, [] => false
  | a :: as, b :: bs => decide (a = b) && startsWithSeq as bs

/-- Does `hay` contain `needle` as a contiguous subsequence? -/
def containsSeq : List Char → List Char → Bool
  | needle, [] => needle.isEmpty
  | needle, c :: t => startsWithSeq needle (c :: t) || containsSeq needle t

/-- From the source: the case-insensitive regex tests `/latitude/i` etc. —
`pat` (already lower-case) occurs in the lower-cased key. -/
def testCI (pat k : String) : Bool :=
  containsSeq pat.toList (toLowerStr k).toList

/-- First cell of the (cleaned) row whose key matches the pattern. -/
def findKey (fields : List (String × String)) (pat : String) :
    Option (String × String) :=
  fields.find? (fun kv => testCI pat kv.1)

/-- From the source: the required-columns check on the cleaned keys. -/
def hasRequiredCols (raw : List (String × String)) : Bool :=
  let norm := raw.map (fun kv => (cleanFieldName kv.1, kv.2))
  (norm.any (fun kv => testCI "latitude" kv.1)) &&
  (norm.any (fun kv => testCI "longitude" kv.1)) &&
  (norm.any (fun kv => testCI "uid" kv.1))

/-- From the source: the `data` handler's per-row processing — clean the
keys, locate the latitude/longitude/UID columns (aborting the whole run
when one is missing, modelled as `none`), `parseFloat` the coordinates
(`NaN` kept, no range validation), and carry every other original column
coerced. -/
def processRow (raw : List (String × String)) : Option CSVRow :=
  let norm := raw.map (fun kv => (cleanFieldName kv.1, kv.2))
  match findKey norm "latitude", findKey norm "longitude", findKey norm "uid" with
  | some lt, some lg, some u =>
      some
        { Latitude := parseFloatQ lt.2
          Longitude := parseFloatQ lg.2
          UID := u.2
          extra := (raw.filter
              (fun kv => decide (kv.1 ∉ ["Latitude", "Longitude", "UID"]))).map
            (fun kv => (kv.1, coerceVal kv.2)) }
  | _, _, _ => none

/-- From the source: parse the whole stream of raw rows in order; a row
with a missing required column kills the process (`none`), otherwise every
row yields exactly one `CSVRow`, in stream order. -/
def processCSV : List (List (String × String)) → Option (List CSVRow)
  | [] => some []
  | raw :: t =>
      match processRow raw, processCSV t with
      | some row, some rows => some (row :: rows)
      | _, _ => none

/-- A feature of the full GeoJSON output: point coordinates
`[longitude, latitude]` and the non-coordinate properties with cleaned
names. -/
structure FullFeature where
  lon : Option ℚ
  lat : Option ℚ
  props : List (String × JSValue)
deriving DecidableEq

/-- A feature of the stripped (`-minimal`) GeoJSON output: rounded point
coordinates and the `UID` property only — by construction it can carry
nothing else. -/
structure StrippedFeature where
  lon : Option ℚ
  lat : Option ℚ
  uid : String
deriving DecidableEq

/-- From the source: `Number(x.toFixed(5))` — round to 5 decimal places
(ties toward the larger value, as `toFixed` specifies); `NaN` stays
`NaN`. -/
def round5 (q : ℚ) : ℚ := (⌊q * 100000 + 1/2⌋ : ℚ) / 100000

/-- From the source: `createFullGeoJSON` — one feature per row, in row
order, coordinates as parsed, properties the non-coordinate columns with
cleaned names. -/
def createFullGeoJSON (rows : List CSVRow) : List FullFeature :=
  rows.map (fun r =>
    ⟨r.Longitude, r.Latitude, r.extra.map (fun kv => (cleanFieldName kv.1, kv.2))⟩)

/-- From the source: `createStrippedGeoJSON` — one feature per row, in row
order, coordinates rounded to 5 decimals, only the UID property. -/
def createStrippedGeoJSON (rows : List CSVRow) : List StrippedFeature :=
  rows.map (fun r => ⟨r.Longitude.map round5, r.Latitude.map round5, r.UID⟩)

end CsvToGeojson

/-! ### Concrete fixtures used by witnesses -/

/-- The everywhere-zero distance function (any metric-like function agrees
with it on the diagonal). -/
def dist0 : Coord → Coord → ℚ := fun _ _ => 0

/-- A simple fitted vectorizer: every token contributes weight 1 (enough to
make identical nonempty token lists have cosine similarity 1). -/
def vec0 : List String → List ℚ := fun ts => ts.map (fun _ => 1)

/-- A concrete record used by witnesses. -/
def sampleA : ProjectRecord :=
  { id := "WH-1"
    name := "Solar Grid Upgrade"
    nameTokens := ["solar", "grid", "upgrade"]
    desc := "solar grid"
    descTokens := ["solar", "grid"]
    fundingSource := .ira
    amount := some 500000
    agency := "EPA"
    state := some "PA"
    coords := some ((40, -75) : ℚ × ℚ) }

/-- A second concrete record used by witnesses. -/
def sampleB : ProjectRecord :=
  { id := "WH-2"
    name := "Bridge Repair"
    nameTokens := ["bridge", "repair"]
    desc := ""
    descTokens := []
    fundingSource := .bil
    amount := none
    agency := "DOT"
    state := some "CA"
    coords := none }

/-- A concrete record for the identical-pair boundary analysis:
coordinates present, state known, nonempty name, but empty description
(hence a zero description vector). -/
def cexC2 : ProjectRecord :=
  { id := "c1"
    name := "Solar"
    nameTokens := ["solar"]
    desc := ""
    descTokens := []
    fundingSource := .ira
    amount := some 1
    agency := "EPA"
    state := some "PA"
    coords := some ((0, 0) : ℚ × ℚ) }

/-! ## Helper lemmas -/

lemma dot_nil_right (b : List ℚ) : dot b [] = 0 := by
  cases b <;> simp [dot]

lemma dot_cons_cons (x y : ℚ) (t u : List ℚ) :
    dot (x :: t) (y :: u) = x * y + dot t u := by
  simp [dot]

lemma dot_comm (a b : List ℚ) : dot a b = dot b a := by
  induction a generalizing b with
  | nil => simp [dot, dot_nil_right]
  | cons x t ih =>
    cases b with
    | nil => simp [dot, dot_nil_right]
    | cons y u => rw [dot_cons_cons, dot_cons_cons, mul_comm, ih]

lemma dot_self_nonneg (a : List ℚ) : 0 ≤ dot a a := by
  induction a with
  | nil => simp [dot]
  | cons x t ih =>
    rw [dot_cons_cons]
    exact add_nonneg (mul_self_nonneg x) ih

lemma cosGT_comm (t : ℚ) (a b : List ℚ) : cosGT t a b = cosGT t b a := by
  unfold cosGT
  rw [dot_comm a b, mul_comm (dot a a) (dot b b)]

lemma cosGT_self {t : ℚ} (h0 : 0 ≤ t) (ht : t < 1) {v : List ℚ}
    (hv : dot v v ≠ 0) : cosGT t v v = true := by
  have hpos : 0 < dot v v := lt_of_le_of_ne (dot_self_nonneg v) (Ne.symm hv)
  have ht2 : t ^ 2 < 1 := by nlinarith
  have hdd : 0 < dot v v * dot v v := mul_pos hpos hpos
  have hfac : 0 < (1 - t ^ 2) * (dot v v * dot v v) :=
    mul_pos (by linarith) hdd
  have hlt : t ^ 2 * (dot v v * dot v v) < (dot v v) ^ 2 := by nlinarith
  simp [cosGT]
  exact ⟨hpos, hlt⟩


lemma parseDecimal_of_no_digits {cs : List Char}
    (h : ∀ c ∈ cs, c.isDigit = false) : parseDecimal cs = none := by
  cases cs with
  | nil => rfl
  | cons c t =>
    have hc := h c (List.mem_cons_self c t)
    have hip : (c :: t).takeWhile Char.isDigit = [] := by
      simp [List.takeWhile_cons, hc]
    have hdp : (c :: t).dropWhile Char.isDigit = c :: t := by
      simp [List.dropWhile_cons, hc]
    simp only [parseDecimal]
    rw [hip, hdp]
    split
    · rename_i heq
      exact absurd heq (by simp)
    · rename_i frac heq
      have hft : '.' :: frac = c :: t := heq.symm
      cases frac with
      | nil => simp
      | cons d u =>
        have hd : d.isDigit = false := by
          refine h d ?_
          rw [← hft]
          simp
        simp [List.all_cons, hd]
    · rfl


lemma pickBetter_eq_or (a c : ScoredCand) :
    pickBetter a c = a ∨ pickBetter a c = c := by
  unfold pickBetter
  split
  · exact Or.inr rfl
  · exact Or.inl rfl

lemma candKey_pickBetter_le_left (a c : ScoredCand) :
    candKey (pickBetter a c) ≤ candKey a := by
  unfold pickBetter
  split
  · exact le_of_lt (by assumption)
  · exact le_refl _

lemma candKey_pickBetter_le_right (a c : ScoredCand) :
    candKey (pickBetter a c) ≤ candKey c := by
  unfold pickBetter
  split
  · exact le_refl _
  · exact le_of_not_lt (by assumption)

lemma foldl_pickBetter_mem :
    ∀ (t : List ScoredCand) (h : ScoredCand), t.foldl pickBetter h ∈ h :: t := by
  intro t
  induction t with
  | nil => intro h; simp
  | cons c u ih =>
    intro h
    rw [List.foldl_cons]
    rcases List.mem_cons.mp (ih (pickBetter h c)) with he | hm
    · rcases pickBetter_eq_or h c with h1 | h1
      · rw [he, h1]
        exact List.mem_cons_self _ _
      · rw [he, h1]
        simp
    · exact List.mem_cons_of_mem _ (List.mem_cons_of_mem _ hm)

lemma foldl_pickBetter_le :
    ∀ (t : List ScoredCand) (h x : ScoredCand), x ∈ h :: t →
      candKey (t.foldl pickBetter h) ≤ candKey x := by
  intro t
  induction t with
  | nil =>
    intro h x hx
    rcases List.mem_cons.mp hx with rfl | hx'
    · exact le_refl _
    · cases hx'
  | cons c u ih =>
    intro h x hx
    rw [List.foldl_cons]
    have hhead : candKey (u.foldl pickBetter (pickBetter h c))
        ≤ candKey (pickBetter h c) :=
      ih (pickBetter h c) _ (List.mem_cons_self _ _)
    rcases List.mem_cons.mp hx with rfl | hx'
    · exact hhead.trans (candKey_pickBetter_le_left x c)
    · rcases List.mem_cons.mp hx' with rfl | hx2
      · exact hhead.trans (candKey_pickBetter_le_right h x)
      · exact ih (pickBetter h c) x (List.mem_cons_of_mem _ hx2)

lemma bestCand_spec {l : List ScoredCand} {b : ScoredCand}
    (hb : bestCand l = some b) :
    b ∈ l ∧ ∀ x ∈ l, candKey b ≤ candKey x := by
  cases l with
  | nil => cases hb
  | cons h t =>
    have hb' : t.foldl pickBetter h = b := by
      injection hb
    subst hb'
    exact ⟨foldl_pickBetter_mem t h, fun x hx => foldl_pickBetter_le t h x hx⟩

lemma candKey_inj_id {c1 c2 : ScoredCand} (h : candKey c1 = candKey c2) :
    c1.cand.id = c2.cand.id := by
  unfold candKey at h
  have h2 := congrArg Prod.snd (toLex_inj.mp h)
  have h3 := toLex_inj.mp h2
  exact congrArg Prod.snd h3

lemma bestCand_unique {l : List ScoredCand}
    (hnd : (l.map (fun c => c.cand.id)).Nodup) {b1 b2 : ScoredCand}
    (m1 : b1 ∈ l) (m2 : b2 ∈ l)
    (h1 : ∀ x ∈ l, candKey b1 ≤ candKey x)
    (h2 : ∀ x ∈ l, candKey b2 ≤ candKey x) : b1 = b2 :=
  List.inj_on_of_nodup_map hnd m1 m2
    (candKey_inj_id (le_antisymm (h1 b2 m2) (h2 b1 m1)))

lemma bestCand_eq_none_iff {l : List ScoredCand} :
    bestCand l = none ↔ l = [] := by
  cases l <;> simp [bestCand]

lemma le_foldr_max {x : ℕ} : ∀ {l : List ℕ}, x ∈ l → x ≤ l.foldr max 0 := by
  intro l
  induction l with
  | nil => intro h; cases h
  | cons y t ih =>
    intro hx
    rcases List.mem_cons.mp hx with rfl | h
    · simp only [List.foldr_cons]
      exact le_max_left _ _
    · simp only [List.foldr_cons]
      exact le_trans (ih h) (le_max_right _ _)

lemma freshId_length (used : List String) :
    (freshId used).length = (used.map String.length).foldr max 0 + 1 := by
  simp [freshId, String.length]

lemma freshId_not_mem (used : List String) : freshId used ∉ used := by
  intro hmem
  have h1 : (freshId used).length ∈ used.map String.length :=
    List.mem_map_of_mem String.length hmem
  have h2 := le_foldr_max h1
  rw [freshId_length] at h2
  omega


lemma stripId_setId (r : ProjectRecord) (i : String) :
    stripId (setId r i) = stripId r := rfl

lemma runBatch_fold_spec (dist : Coord → Coord → ℚ) (vec : List String → List ℚ)
    (db : List ProjectRecord) :
    ∀ (batch : List ProjectRecord) (st : RunState),
      (batch.foldl (runStep dist vec db) st).review
          = st.review ++ reviewsOf dist vec db batch
      ∧ (batch.foldl (runStep dist vec db) st).merges
          = st.merges ++ dupsOf dist vec db batch
      ∧ (batch.foldl (runStep dist vec db) st).news.map stripId
          = st.news.map stripId ++ (newsOf dist vec db batch).map stripId := by
  intro batch
  induction batch with
  | nil => intro st; simp [reviewsOf, dupsOf, newsOf]
  | cons r t ih =>
    intro st
    rw [List.foldl_cons]
    obtain ⟨h1, h2, h3⟩ := ih (runStep dist vec db st r)
    cases hc : classifyOne dist vec db r with
    | dup m =>
      simp only [runStep, hc] at h1 h2 h3
      refine ⟨?_, ?_, ?_⟩ <;>
        simp [h1, h2, h3, runStep, hc, reviewsOf, dupsOf, newsOf,
          List.filterMap_cons, List.filter_cons, stripId_setId]
    | review m sc =>
      simp only [runStep, hc] at h1 h2 h3
      refine ⟨?_, ?_, ?_⟩ <;>
        simp [h1, h2, h3, runStep, hc, reviewsOf, dupsOf, newsOf,
          List.filterMap_cons, List.filter_cons, stripId_setId]
    | new =>
      simp only [runStep, hc] at h1 h2 h3
      refine ⟨?_, ?_, ?_⟩ <;>
        simp [h1, h2, h3, runStep, hc, reviewsOf, dupsOf, newsOf,
          List.filterMap_cons, List.filter_cons, stripId_setId]

lemma mergeFold_id : ∀ (ms : List (String × ProjectRecord)) (c : ProjectRecord),
    (ms.foldl (fun acc m => mergeRecords acc m.2) c).id = c.id := by
  intro ms
  induction ms with
  | nil => intro c; rfl
  | cons m t ih =>
    intro c
    rw [List.foldl_cons, ih]
    rfl

lemma applyMerges_map_id (db : List ProjectRecord)
    (ms : List (String × ProjectRecord)) :
    (applyMerges db ms).map (fun r => r.id) = db.map (fun r => r.id) := by
  unfold applyMerges
  induction db with
  | nil => rfl
  | cons c t ih =>
    simp only [List.map_cons, ih, List.cons.injEq, and_true]
    exact mergeFold_id _ c

lemma applyMerges_length (db : List ProjectRecord)
    (ms : List (String × ProjectRecord)) :
    (applyMerges db ms).length = db.length := by
  simp [applyMerges]

end IraTracker

namespace IraTracker

/-! ## Claim theorems -/

/-- C1: the Decision Engine classifies by the best candidate score with
exact boundaries — a score of 80 is Duplicate, 79 is NeedsReview, 40 is
NeedsReview, 39 is New; in general score ≥ 80 is Duplicate,
40 ≤ score < 80 is NeedsReview, score < 40 is New, and the three outcomes
partition all scores (exhaustive and mutually exclusive). -/
theorem decision_engine_boundaries :
    (∀ s : ℕ, (classify s = .duplicate ↔ 80 ≤ s)
      ∧ (classify s = .needsReview ↔ 40 ≤ s ∧ s < 80)
      ∧ (classify s = .new ↔ s < 40))
    ∧ classify 80 = .duplicate ∧ classify 79 = .needsReview
    ∧ classify 40 = .needsReview ∧ classify 39 = .new := by
  refine ⟨fun s => ⟨?_, ?_, ?_⟩, rfl, rfl, rfl, rfl⟩
  all_goals unfold classify
  all_goals split_ifs <;> simp_all <;> omega

/-- C3: the geographic criterion's tier boundaries are strict upper
bounds — at exactly 1.0 km it awards 30 points (the <10 km tier), at
0.999 km it awards 40, and at ≥100 km or with missing coordinates it
awards 0. -/
theorem geo_tier_boundaries :
    (∀ d : ℚ, d = 1 → geoPoints (some d) = 30)
    ∧ (∀ d : ℚ, d = 999/1000 → geoPoints (some d) = 40)
    ∧ (∀ d : ℚ, 100 ≤ d → geoPoints (some d) = 0)
    ∧ geoPoints none = 0 := by
  refine ⟨?_, ?_, ?_, rfl⟩
  · rintro d rfl
    norm_num [geoPoints]
  · rintro d rfl
    norm_num [geoPoints]
  · intro d hd
    have h1 : ¬ d < 1 := by linarith
    have h2 : ¬ d < 10 := by linarith
    have h3 : ¬ d < 50 := by linarith
    have h4 : ¬ d < 100 := by linarith
    simp [geoPoints, h1, h2, h3, h4]

/-- Witness for C3 at the concrete distances named by the claim. -/
theorem geo_tier_boundaries_witness :
    geoPoints (some 1) = 30 ∧ geoPoints (some (999/1000)) = 40
    ∧ geoPoints (some 100) = 0 ∧ geoPoints none = 0 :=
  ⟨geo_tier_boundaries.1 1 rfl, geo_tier_boundaries.2.1 (999/1000) rfl,
   geo_tier_boundaries.2.2.1 100 (le_refl 100), geo_tier_boundaries.2.2.2⟩

/-- C2 counterexample: the claim "every pair of identical records scores
exactly 100, for all values of the shared fields including an empty shared
description" is false — for the concrete identical pair `cexC2` (empty
description, hence description criterion 0) the score is 95, not 100: the
per-criterion maxima sum to 110, so losing the 15 description points
leaves at most 95 even after the cap. -/
theorem identical_records_score_cex :
    ¬ (∀ (dist : Coord → Coord → ℚ) (vec : List String → List ℚ),
        (∀ p : Coord, dist p p = 0) →
        ∀ a : ProjectRecord,
          score dist vec a a = 100 ∧
          classify (score dist vec a a) = .duplicate) := by
  intro h
  have hval : score dist0 vec0 cexC2 cexC2 = 95 := by
    norm_num [score, geoPoints, pairDist, dist0, cexC2, statePoints,
      sourcePoints, namePoints, descPoints, amountPoints, agencyPoints,
      cosGT, vec0, dot]
  have h100 := (h dist0 vec0 (fun _ => rfl) cexC2).1
  rw [hval] at h100
  exact absurd h100 (by norm_num)

/-- C2 (amended): for every pair of identical records whose coordinates
are present, whose state is known, and whose name and description vectors
are nonzero (nonempty normalized text), the score is exactly 100 and the
classification is Duplicate — for every funding source (including neither
IRA nor BIL) and every amount (including zero and unknown), because the
remaining criteria already sum to at least 100 before the cap.  With an
empty description the score can drop as low as 85 (cf. the
counterexample). -/
theorem identical_records_score_amended :
    ∀ (dist : Coord → Coord → ℚ) (vec : List String → List ℚ),
      (∀ p : Coord, dist p p = 0) →
      ∀ a : ProjectRecord,
        a.coords.isSome = true →
        a.state.isSome = true →
        dot (vec a.nameTokens) (vec a.nameTokens) ≠ 0 →
        dot (vec a.descTokens) (vec a.descTokens) ≠ 0 →
        score dist vec a a = 100 ∧
        classify (score dist vec a a) = .duplicate := by
  intro dist vec hd a hc hs hn hdsc
  obtain ⟨c, hcc⟩ := Option.isSome_iff_exists.mp hc
  obtain ⟨st, hst⟩ := Option.isSome_iff_exists.mp hs
  have hgeo : geoPoints (pairDist dist a a) = 40 := by
    norm_num [pairDist, hcc, hd, geoPoints]
  have hstp : statePoints a a = 10 := by simp [statePoints, hst]
  have hnm : namePoints vec a a = 30 := by
    have h1 : cosGT (8/10) (vec a.nameTokens) (vec a.nameTokens) = true :=
      cosGT_self (by norm_num) (by norm_num) hn
    simp [namePoints, h1]
  have hdc : descPoints vec a a = 15 := by
    have h1 : cosGT (7/10) (vec a.descTokens) (vec a.descTokens) = true :=
      cosGT_self (by norm_num) (by norm_num) hdsc
    simp [descPoints, h1]
  have hag : agencyPoints a a = 5 := by simp [agencyPoints]
  have htot : score dist vec a a = 100 := by
    rw [score, hgeo, hstp, hnm, hdc, hag]
    omega
  exact ⟨htot, by rw [htot]; rfl⟩

/-- Witness for the amended C2 at a concrete identical pair. -/
theorem identical_records_score_amended_witness :
    score dist0 vec0 sampleA sampleA = 100 ∧
    classify (score dist0 vec0 sampleA sampleA) = .duplicate :=
  identical_records_score_amended dist0 vec0 (fun _ => rfl) sampleA rfl rfl
    (by norm_num [vec0, sampleA, dot]) (by norm_num [vec0, sampleA, dot])

/-- C9: the geographic-distance, name-similarity, description-similarity
and agency-match criteria are symmetric in the order of the two records
(given that the underlying distance function is symmetric, as the
haversine is). -/
theorem criteria_symmetric :
    ∀ (dist : Coord → Coord → ℚ) (vec : List String → List ℚ),
      (∀ p q : Coord, dist p q = dist q p) →
      ∀ a b : ProjectRecord,
        geoPoints (pairDist dist a b) = geoPoints (pairDist dist b a)
        ∧ namePoints vec a b = namePoints vec b a
        ∧ descPoints vec a b = descPoints vec b a
        ∧ agencyPoints a b = agencyPoints b a := by
  intro dist vec hsym a b
  refine ⟨?_, ?_, ?_, ?_⟩
  · cases hca : a.coords <;> cases hcb : b.coords <;>
      simp [pairDist, hca, hcb, hsym]
  · unfold namePoints
    rw [cosGT_comm (8/10) (vec a.nameTokens) (vec b.nameTokens),
      cosGT_comm (5/10) (vec a.nameTokens) (vec b.nameTokens),
      cosGT_comm (3/10) (vec a.nameTokens) (vec b.nameTokens)]
  · unfold descPoints
    rw [cosGT_comm (7/10) (vec a.descTokens) (vec b.descTokens),
      cosGT_comm (4/10) (vec a.descTokens) (vec b.descTokens),
      cosGT_comm (2/10) (vec a.descTokens) (vec b.descTokens)]
  · unfold agencyPoints
    simp [eq_comm]

/-- Witness for C9 at a concrete pair of records. -/
theorem criteria_symmetric_witness :
    geoPoints (pairDist dist0 sampleA sampleB) = geoPoints (pairDist dist0 sampleB sampleA)
    ∧ namePoints vec0 sampleA sampleB = namePoints vec0 sampleB sampleA
    ∧ descPoints vec0 sampleA sampleB = descPoints vec0 sampleB sampleA
    ∧ agencyPoints sampleA sampleB = agencyPoints sampleB sampleA :=
  criteria_symmetric dist0 vec0 (fun _ _ => rfl) sampleA sampleB

/-- C6: the Normalizer parses currency-like fields into exact decimal
amounts; a value with no digits (in particular the empty string) becomes
the explicit unknown amount, never zero; and the funding-amount criterion
awards 5 points exactly when both amounts are known, not both zero, and
within 10% of each other relative to the larger, and 0 points when either
amount is unknown or both are zero. -/
theorem amount_parsing_and_criterion :
    (∀ s : String, (∀ c ∈ s.toList, c.isDigit = false) → parseAmount s = none)
    ∧ parseAmount "" = none
    ∧ parseAmount "$1,234.50" = some (2469/2)
    ∧ (∀ a b : ProjectRecord, ∀ x y : ℚ,
        a.amount = some x → b.amount = some y → ¬(x = 0 ∧ y = 0) →
        (amountPoints a b = 5 ↔ |x - y| ≤ max x y / 10))
    ∧ (∀ a b : ProjectRecord,
        a.amount = none ∨ b.amount = none → amountPoints a b = 0)
    ∧ (∀ a b : ProjectRecord,
        a.amount = some 0 → b.amount = some 0 → amountPoints a b = 0) := by
  refine ⟨?_, rfl, ?_, ?_, ?_, ?_⟩
  · intro s h
    refine parseDecimal_of_no_digits ?_
    intro c hc
    exact h c (List.mem_of_mem_filter hc)
  · rw [show parseAmount "$1,234.50"
        = some (((1234:ℕ):ℚ) + ((50:ℕ):ℚ)/10^2) from rfl]
    norm_num
  · intro a b x y hx hy hz
    simp only [amountPoints, hx, hy]
    rw [if_neg hz]
    split_ifs with h
    · simp [h]
    · exact iff_of_false (by norm_num) h
  · intro a b h
    rcases h with h | h <;> cases ha : a.amount <;> cases hb : b.amount <;>
      simp_all [amountPoints]
  · intro a b h0a h0b
    simp [amountPoints, h0a, h0b]

/-- Witness for C6 at concrete inputs: a digit-free string parses to
unknown; identical known amounts are within 10 percent; an unknown amount
scores 0; two zero amounts score 0. -/
theorem amount_parsing_and_criterion_witness :
    parseAmount "xyz" = none
    ∧ (amountPoints sampleA sampleA = 5
        ↔ |(500000:ℚ) - 500000| ≤ max (500000:ℚ) 500000 / 10)
    ∧ amountPoints sampleA sampleB = 0
    ∧ amountPoints { sampleA with amount := some 0 }
        { sampleA with amount := some 0 } = 0 :=
  ⟨amount_parsing_and_criterion.1 "xyz" (by decide),
   amount_parsing_and_criterion.2.2.2.1 sampleA sampleA 500000 500000 rfl rfl
     (by norm_num),
   amount_parsing_and_criterion.2.2.2.2.1 sampleA sampleB (Or.inr rfl),
   amount_parsing_and_criterion.2.2.2.2.2 _ _ rfl rfl⟩

/-- C5: for a non-empty candidate set exactly one (the key-minimal, i.e.
highest-scoring with ties broken by smaller distance then smaller
identifier) candidate is retained, and — when candidate identifiers are
pairwise distinct, as the by-identifier deduplication guarantees — the
retained candidate is invariant under any reordering of the candidate
list, so it is a function of the candidate set alone. -/
theorem best_candidate_selection :
    ∀ l1 l2 : List ScoredCand, l1.Perm l2 →
      ((l1.map (fun c => c.cand.id)).Nodup → bestCand l1 = bestCand l2)
      ∧ (∀ b, bestCand l1 = some b →
          b ∈ l1 ∧ ∀ x ∈ l1, candKey b ≤ candKey x) := by
  intro l1 l2 hperm
  constructor
  · intro hnd
    cases hb1 : bestCand l1 with
    | none =>
      have h1 : l1 = [] := bestCand_eq_none_iff.mp hb1
      subst h1
      have h2 : l2 = [] := hperm.symm.eq_nil
      subst h2
      rfl
    | some b1 =>
      cases hb2 : bestCand l2 with
      | none =>
        have h2 : l2 = [] := bestCand_eq_none_iff.mp hb2
        subst h2
        have h1 : l1 = [] := hperm.eq_nil
        subst h1
        cases hb1
      | some b2 =>
        obtain ⟨m1, h1⟩ := bestCand_spec hb1
        obtain ⟨m2, h2⟩ := bestCand_spec hb2
        have m2' : b2 ∈ l1 := hperm.mem_iff.mpr m2
        have h2' : ∀ x ∈ l1, candKey b2 ≤ candKey x :=
          fun x hx => h2 x (hperm.mem_iff.mp hx)
        rw [bestCand_unique hnd m1 m2' h1 h2']
  · intro b hb
    exact bestCand_spec hb

/-- Witness for C5: the retained candidate is the same for the two
orderings of a concrete two-candidate set with distinct identifiers. -/
theorem best_candidate_selection_witness :
    bestCand [mkCand dist0 vec0 sampleA sampleA, mkCand dist0 vec0 sampleA sampleB]
      = bestCand [mkCand dist0 vec0 sampleA sampleB, mkCand dist0 vec0 sampleA sampleA] :=
  (best_candidate_selection _ _ (List.Perm.swap _ _ _)).1 (by decide)

/-- C4: for an incoming record with an empty candidate set the best score
is defined as 0, the record is classified New, and the scoring step
appends it with a freshly generated identifier that is not among the
identifiers in use — in particular never colliding with any canonical
identifier. -/
theorem empty_candidate_set_new :
    ∀ (dist : Coord → Coord → ℚ) (vec : List String → List ℚ)
      (db : List ProjectRecord) (r : ProjectRecord),
      candidatesFor dist db r = [] →
      bestScoreOf ((candidatesFor dist db r).map (mkCand dist vec r)) = 0
      ∧ classifyOne dist vec db r = .new
      ∧ (∀ st : RunState,
          runStep dist vec db st r
            = ⟨st.usedIds ++ [freshId st.usedIds], st.merges,
               st.news ++ [setId r (freshId st.usedIds)], st.review⟩
          ∧ freshId st.usedIds ∉ st.usedIds)
      ∧ (∀ st : RunState, db.map (fun c => c.id) ⊆ st.usedIds →
          freshId st.usedIds ∉ db.map (fun c => c.id)) := by
  intro dist vec db r hempty
  have hcls : classifyOne dist vec db r = .new := by
    unfold classifyOne
    rw [hempty]
    rfl
  refine ⟨?_, hcls, ?_, ?_⟩
  · rw [hempty]
    rfl
  · intro st
    constructor
    · unfold runStep
      rw [hcls]
    · exact freshId_not_mem st.usedIds
  · intro st hsub hmem
    exact freshId_not_mem st.usedIds (hsub hmem)

/-- Witness for C4 at a concrete record with no candidates (empty
canonical set). -/
theorem empty_candidate_set_new_witness :
    bestScoreOf ((candidatesFor dist0 [] sampleB).map (mkCand dist0 vec0 sampleB)) = 0
    ∧ classifyOne dist0 vec0 [] sampleB = .new
    ∧ freshId (initState []).usedIds ∉ (initState []).usedIds :=
  ⟨(empty_candidate_set_new dist0 vec0 [] sampleB rfl).1,
   (empty_candidate_set_new dist0 vec0 [] sampleB rfl).2.1,
   ((empty_candidate_set_new dist0 vec0 [] sampleB rfl).2.2.1 (initState [])).2⟩

/-- C7: error containment is two-tier — an unrecognized source schema
fails closed with `unknownSchemaError`; a row whose normalization errors
is skipped (and counted) while the rest of the batch produces exactly the
same records; and an index-construction error aborts the whole run with
no partial output. -/
theorem error_containment :
    (∀ (tag : String) (fields : List (String × String)),
        normalizeRow ⟨.unknownSrc tag, fields⟩ = .error .unknownSchemaError)
    ∧ (∀ (xs ys : List RawRow) (b : RawRow) (e : NormError),
        normalizeRow b = .error e →
        (normalizeBatch (xs ++ b :: ys)).1 = (normalizeBatch (xs ++ ys)).1
        ∧ (normalizeBatch (xs ++ b :: ys)).2 = (normalizeBatch (xs ++ ys)).2 + 1)
    ∧ (∀ (dist : Coord → Coord → ℚ) (vec : List String → List ℚ)
        (db batch : List ProjectRecord) (e : IndexBuildError),
        buildIndex db = .error e →
        runPipeline dist vec db batch = .error e) := by
  refine ⟨?_, ?_, ?_⟩
  · intro tag fields
    rfl
  · intro xs ys b e hb
    have hopt : (normalizeRow b).toOption = none := by rw [hb]; rfl
    have hok : (!(normalizeRow b).isOk) = true := by rw [hb]; rfl
    constructor
    · simp [normalizeBatch, List.filterMap_append, List.filterMap_cons, hopt]
    · simp [normalizeBatch, List.countP_append, List.countP_cons, hok]
      omega
  · intro dist vec db batch e hb
    unfold runPipeline
    rw [hb]

/-- Witness for C7 at concrete inputs: an unknown-schema row, a batch with
one erroring row in the middle, and a canonical set with one malformed
record (latitude 200). -/
theorem error_containment_witness :
    normalizeRow ⟨.unknownSrc "csv", [("name", "X")]⟩
        = .error .unknownSchemaError
    ∧ ((normalizeBatch ([⟨.whiteHouse, [("name", "A")]⟩]
            ++ (⟨.unknownSrc "z", []⟩ : RawRow)
              :: [⟨.whiteHouse, [("name", "B")]⟩])).1
        = (normalizeBatch ([⟨.whiteHouse, [("name", "A")]⟩]
            ++ [⟨.whiteHouse, [("name", "B")]⟩])).1)
    ∧ runPipeline dist0 vec0 [{ sampleA with coords := some ((200, 0) : ℚ × ℚ) }] []
        = .error .malformedCanonicalRecord := by
  refine ⟨error_containment.1 "csv" [("name", "X")], ?_, ?_⟩
  · exact (error_containment.2.1 [⟨.whiteHouse, [("name", "A")]⟩]
      [⟨.whiteHouse, [("name", "B")]⟩] ⟨.unknownSrc "z", []⟩
      .unknownSchemaError rfl).1
  · refine error_containment.2.2 dist0 vec0 _ [] .malformedCanonicalRecord ?_
    rfl

/-- C8: the pipeline is deterministic over its input snapshot — the review
output is, row for row and in batch order, a pure per-record function of
the canonical snapshot and the record; the canonical output's prefix is
the original canonical records (order and identifiers preserved) with the
batch's duplicate merges applied; and its suffix is exactly the records
the snapshot classifies New, in batch order.  (The run itself is a pure
function of the snapshot and batch, so two runs on the same inputs are
definitionally identical.) -/
theorem run_deterministic_ordering :
    ∀ (dist : Coord → Coord → ℚ) (vec : List String → List ℚ)
      (db batch : List ProjectRecord) (out : RunOutput),
      runPipeline dist vec db batch = .ok out →
      out.review = reviewsOf dist vec db batch
      ∧ out.canonical.take db.length = applyMerges db (dupsOf dist vec db batch)
      ∧ (out.canonical.take db.length).map (fun r => r.id) = db.map (fun r => r.id)
      ∧ (out.canonical.drop db.length).map stripId
          = (newsOf dist vec db batch).map stripId := by
  intro dist vec db batch out hrun
  unfold runPipeline at hrun
  cases hbi : buildIndex db with
  | error e =>
    rw [hbi] at hrun
    cases hrun
  | ok idx =>
    rw [hbi] at hrun
    have hidx : idx.records = db := by
      unfold buildIndex at hbi
      split at hbi
      · injection hbi with h
        rw [← h]
      · cases hbi
    injection hrun with hout
    rw [hidx] at hout
    obtain ⟨h1, h2, h3⟩ :=
      runBatch_fold_spec dist vec db batch (initState db)
    have hrev : (runBatch dist vec db batch).review
        = reviewsOf dist vec db batch := by
      rw [runBatch, h1]
      rfl
    have hmrg : (runBatch dist vec db batch).merges
        = dupsOf dist vec db batch := by
      rw [runBatch, h2]
      rfl
    have hnews : (runBatch dist vec db batch).news.map stripId
        = (newsOf dist vec db batch).map stripId := by
      rw [runBatch, h3]
      rfl
    have hlen : (applyMerges db (runBatch dist vec db batch).merges).length
        = db.length := applyMerges_length db _
    refine ⟨?_, ?_, ?_, ?_⟩
    · rw [← hout]
      exact hrev
    · rw [← hout]
      show (applyMerges db (runBatch dist vec db batch).merges
          ++ (runBatch dist vec db batch).news).take db.length = _
      rw [← hlen, List.take_left, hmrg]
    · rw [← hout]
      show ((applyMerges db (runBatch dist vec db batch).merges
          ++ (runBatch dist vec db batch).news).take db.length).map _ = _
      rw [← hlen, List.take_left]
      exact applyMerges_map_id db _
    · rw [← hout]
      show ((applyMerges db (runBatch dist vec db batch).merges
          ++ (runBatch dist vec db batch).news).drop db.length).map stripId = _
      rw [← hlen, List.drop_left]
      exact hnews

/-- Witness for C8 on a concrete run (one canonical record, empty batch). -/
theorem run_deterministic_ordering_witness :
    (RunOutput.mk [sampleA] []).review = reviewsOf dist0 vec0 [sampleA] []
    ∧ (RunOutput.mk [sampleA] []).canonical.take [sampleA].length
        = applyMerges [sampleA] (dupsOf dist0 vec0 [sampleA] [])
    ∧ ((RunOutput.mk [sampleA] []).canonical.take [sampleA].length).map
        (fun r => r.id) = [sampleA].map (fun r => r.id)
    ∧ ((RunOutput.mk [sampleA] []).canonical.drop [sampleA].length).map stripId
        = (newsOf dist0 vec0 [sampleA] []).map stripId :=
  run_deterministic_ordering dist0 vec0 [sampleA] [] (RunOutput.mk [sampleA] []) rfl

/-- C10: the CSV-to-GeoJSON converter emits exactly one feature per parsed
row in each of its two outputs, preserving input row order; the stripped
output's features carry only the UID property, with coordinates rounded to
5 decimal places; no coordinate-range validation or filtering is
performed — a row whose required columns are present is always parsed,
and a latitude that fails `parseFloat` yields a feature with `NaN`
(`none`) coordinates rather than being dropped or raising an error. -/
theorem csv_to_geojson_behavior :
    (∀ rows : List CsvToGeojson.CSVRow,
        (CsvToGeojson.createFullGeoJSON rows).length = rows.length
        ∧ (CsvToGeojson.createStrippedGeoJSON rows).length = rows.length)
    ∧ (∀ (rows : List CsvToGeojson.CSVRow) (i : ℕ),
        (CsvToGeojson.createStrippedGeoJSON rows)[i]?
          = rows[i]?.map (fun r =>
              ⟨r.Longitude.map CsvToGeojson.round5,
               r.Latitude.map CsvToGeojson.round5, r.UID⟩))
    ∧ (∀ (rows : List CsvToGeojson.CSVRow) (i : ℕ),
        (CsvToGeojson.createFullGeoJSON rows)[i]?
          = rows[i]?.map (fun r =>
              ⟨r.Longitude, r.Latitude,
               r.extra.map (fun kv => (CsvToGeojson.cleanFieldName kv.1, kv.2))⟩))
    ∧ (∀ raw, CsvToGeojson.hasRequiredCols raw = true →
        (CsvToGeojson.processRow raw).isSome = true)
    ∧ (∀ raws rows, CsvToGeojson.processCSV raws = some rows →
        rows.length = raws.length)
    ∧ CsvToGeojson.parseFloatQ "abc" = none
    ∧ CsvToGeojson.processRow
        [("Latitude", "abc"), ("Longitude", "-75"), ("UID", "x1")]
        = some ⟨none, some (-75), "x1", []⟩ := by
  refine ⟨?_, ?_, ?_, ?_, ?_, rfl, ?_⟩
  · intro rows
    constructor <;> simp [CsvToGeojson.createFullGeoJSON,
      CsvToGeojson.createStrippedGeoJSON]
  · intro rows i
    simp [CsvToGeojson.createStrippedGeoJSON, List.getElem?_map]
  · intro rows i
    simp [CsvToGeojson.createFullGeoJSON, List.getElem?_map]
  · intro raw h
    simp only [CsvToGeojson.hasRequiredCols, Bool.and_eq_true] at h
    obtain ⟨⟨h1, h2⟩, h3⟩ := h
    have f1 : ((raw.map (fun kv => (CsvToGeojson.cleanFieldName kv.1, kv.2))).find?
        (fun kv => CsvToGeojson.testCI "latitude" kv.1)).isSome := by
      rw [List.find?_isSome]
      exact List.any_eq_true.mp h1
    have f2 : ((raw.map (fun kv => (CsvToGeojson.cleanFieldName kv.1, kv.2))).find?
        (fun kv => CsvToGeojson.testCI "longitude" kv.1)).isSome := by
      rw [List.find?_isSome]
      exact List.any_eq_true.mp h2
    have f3 : ((raw.map (fun kv => (CsvToGeojson.cleanFieldName kv.1, kv.2))).find?
        (fun kv => CsvToGeojson.testCI "uid" kv.1)).isSome := by
      rw [List.find?_isSome]
      exact List.any_eq_true.mp h3
    obtain ⟨v1, hv1⟩ := Option.isSome_iff_exists.mp f1
    obtain ⟨v2, hv2⟩ := Option.isSome_iff_exists.mp f2
    obtain ⟨v3, hv3⟩ := Option.isSome_iff_exists.mp f3
    simp only [CsvToGeojson.processRow, CsvToGeojson.findKey]
    rw [hv1, hv2, hv3]
    rfl
  · intro raws
    induction raws with
    | nil =>
      intro rows h
      simp only [CsvToGeojson.processCSV] at h
      injection h with h
      rw [← h]
      rfl
    | cons a t ih =>
      intro rows h
      simp only [CsvToGeojson.processCSV] at h
      cases ha : CsvToGeojson.processRow a with
      | none => rw [ha] at h; cases h
      | some b =>
        rw [ha] at h
        cases ht : CsvToGeojson.processCSV t with
        | none => rw [ht] at h; cases h
        | some bs =>
          rw [ht] at h
          injection h with h
          rw [← h]
          simp [ih bs ht]
  · rw [show CsvToGeojson.processRow
        [("Latitude", "abc"), ("Longitude", "-75"), ("UID", "x1")]
        = some ⟨none, some (-((75:ℕ):ℚ)), "x1", []⟩ from rfl]
    norm_num

/-- Witness for C10 at a concrete parsed row and a concrete raw stream. -/
theorem csv_to_geojson_behavior_witness :
    ((CsvToGeojson.createFullGeoJSON [⟨none, some 1, "u", []⟩]).length = 1
      ∧ (CsvToGeojson.createStrippedGeoJSON [⟨none, some 1, "u", []⟩]).length = 1)
    ∧ (CsvToGeojson.processRow
        [("Latitude", "1"), ("Longitude", "2"), ("UID", "u")]).isSome = true
    ∧ ([CsvToGeojson.CSVRow.mk (some ((1:ℕ):ℚ)) (some ((2:ℕ):ℚ)) "u" []].length
        = [[("Latitude", "1"), ("Longitude", "2"), ("UID", "u")]].length) :=
  ⟨csv_to_geojson_behavior.1 [⟨none, some 1, "u", []⟩],
   csv_to_geojson_behavior.2.2.2.1
     [("Latitude", "1"), ("Longitude", "2"), ("UID", "u")] rfl,
   csv_to_geojson_behavior.2.2.2.2.1
     [[("Latitude", "1"), ("Longitude", "2"), ("UID", "u")]]
     [CsvToGeojson.CSVRow.mk (some ((1:ℕ):ℚ)) (some ((2:ℕ):ℚ)) "u" []] rfl⟩

end IraTracker
